import Mathlib

/-!
Verification of the static-analysis engine of `src/debugger/tools/custom_tool.py`.

The file shallowly embeds the three tool entry points
(`CodeAnalysisTool._run`, `DependencyAnalyzer._run`, `SolutionValidator._run`)
and proves or refutes the frozen specification claims about them.

Modelling conventions:
  * The Python `ast` module is the external parser front-end; trees are values
    of the `Node` type below and a parse outcome is an `Except String Node`
    (`.error msg` models `ast.parse` raising `SyntaxError(msg)`, which the
    tools catch at their boundary).
  * `ast.walk` is a breadth-first traversal (a deque of pending nodes from
    which the front is popped while its children are appended in field order);
    it is embedded as the fuel-based structural recursion `walkF`, started
    with fuel `countN t`, the exact number of nodes of the tree, so the fuel
    never runs out (`walkF_fuelIrrel` below makes this precise).
  * Machine effects of `DependencyAnalyzer._run` (the `pip` subprocess and the
    filesystem) are passed as explicit parameters.
  * The `re`-based checks of `SolutionValidator._run` are embedded as direct
    decidable scanners over `List Char`; each definition documents the regular
    expression it implements and why the scanner has the same boolean
    (`re.search` found a match / found none) semantics.
-/

/-- Nodes of the Python abstract syntax tree, restricted to the node kinds the
three tools dispatch on.  `importN` stores the reconstructed source text of an
`Import`/`ImportFrom` statement (the code only ever applies `ast.unparse` to
such nodes).  `constant` stores the unparsed text of a literal.  `other`
stands for any further node kind together with its child nodes; the tools
never match on it, so only its children matter (for `ast.walk`). -/
inductive Node where
  | module (body : List Node)
  | importN (text : String)
  | classDef (name : String) (body : List Node)
  | functionDef (name : String) (args : List String) (defaults : List Node) (body : List Node)
  | assign (targets : List Node) (value : Node)
  | name (id : String)
  | attr (value : Node) (attrName : String)
  | call (func : Node) (args : List Node)
  | constant (text : String)
  | listLit (elts : List Node)
  | dictLit (keys : List Node) (values : List Node)
  | tuple (elts : List Node)
  | ret (value : Option Node)
  | passStmt
  | exprStmt (value : Node)
  | tryStmt (body : List Node) (handlers : List Node)
  | other (children : List Node)

namespace Node

/-- Child nodes in field order, as enumerated by `ast.iter_child_nodes`.
(For `functionDef` the Python tree interposes an `arguments` wrapper node
holding the plain `arg` names and the default expressions; the names are not
themselves `FunctionDef`/`ClassDef`/`Assign`/`Call` nodes, so flattening that
wrapper away changes nothing any of the three tools observes.) -/
def children : Node → List Node
  | .module b => b
  | .importN _ => []
  | .classDef _ b => b
  | .functionDef _ _ ds b => ds ++ b
  | .assign ts v => ts ++ [v]
  | .name _ => []
  | .attr v _ => [v]
  | .call f args => f :: args
  | .constant _ => []
  | .listLit es => es
  | .dictLit ks vs => ks ++ vs
  | .tuple es => es
  | .ret v => v.toList
  | .passStmt => []
  | .exprStmt v => [v]
  | .tryStmt b hs => b ++ hs
  | .other cs => cs

end Node

mutual
/-- Number of nodes of a tree (used as fuel for the breadth-first walk). -/
def countN : Node → Nat
  | .module b => 1 + countL b
  | .importN _ => 1
  | .classDef _ b => 1 + countL b
  | .functionDef _ _ ds b => 1 + countL ds + countL b
  | .assign ts v => 1 + countL ts + countN v
  | .name _ => 1
  | .attr v _ => 1 + countN v
  | .call f args => 1 + countN f + countL args
  | .constant _ => 1
  | .listLit es => 1 + countL es
  | .dictLit ks vs => 1 + countL ks + countL vs
  | .tuple es => 1 + countL es
  | .ret v => 1 + (match v with | none => 0 | some n => countN n)
  | .passStmt => 1
  | .exprStmt v => 1 + countN v
  | .tryStmt b hs => 1 + countL b + countL hs
  | .other cs => 1 + countL cs

/-- Total node count of a list of trees. -/
def countL : List Node → Nat
  | [] => 0
  | n :: t => countN n + countL t
end

/-- Breadth-first traversal with explicit fuel: `ast.walk` pops the front of a
deque, yields it and appends its children.  With fuel at least the total node
count of the queue the fuel never runs out, so `walk` below initialises it
with `countN t`, the exact node count. -/
def walkF : Nat → List Node → List Node
  | _, [] => []
  | 0, _ :: _ => []
  | fuel + 1, n :: rest => n :: walkF fuel (rest ++ n.children)

/-- Embedding of `ast.walk(t)`. -/
def walk (t : Node) : List Node := walkF (countN t) [t]

mutual
/-- Embedding of `ast.unparse` on the expression fragment of `Node` (the
tools apply it to import statements, call receivers and assignment
right-hand sides).  A `constant` carries its unparsed text directly.
Statement kinds never occur in those positions, so they map to `""`.
(One simplification against CPython: a one-element tuple is rendered without
the trailing comma; no theorem below unparses a tuple.) -/
def unparse : Node → String
  | .name i => i
  | .attr v a => unparse v ++ "." ++ a
  | .call f args => unparse f ++ "(" ++ String.intercalate ", " (unparses args) ++ ")"
  | .constant t => t
  | .listLit es => "[" ++ String.intercalate ", " (unparses es) ++ "]"
  | .dictLit ks vs =>
      "\x7b" ++
        String.intercalate ", "
          (List.zipWith (fun k v => k ++ ": " ++ v) (unparses ks) (unparses vs)) ++
      "\x7d"
  | .tuple es => "(" ++ String.intercalate ", " (unparses es) ++ ")"
  | .importN t => t
  | _ => ""

/-- The unparsed texts of a list of expressions, elementwise. -/
def unparses : List Node → List String
  | [] => []
  | e :: es => unparse e :: unparses es
end

/-- Name of a `FunctionDef` node (`n.name` under `isinstance(n, ast.FunctionDef)`). -/
def fnName : Node → Option String
  | .functionDef nm _ _ _ => some nm
  | _ => none

/-- The `imports` list of `CodeAnalysisTool._run`: the unparsed text of every
`Import`/`ImportFrom` node of the walk, in walk order. -/
def importsOf (t : Node) : List String :=
  (walk t).filterMap fun n => match n with | .importN s => some s | _ => none

/-- The `function_calls` list of `CodeAnalysisTool._run`: callee names of the
`Call` nodes whose `func` is a bare `Name`. -/
def function_callsOf (t : Node) : List String :=
  (walk t).filterMap fun n => match n with | .call (.name i) _ => some i | _ => none

/-- The `attributes` list of `CodeAnalysisTool._run`: for `Call` nodes whose
`func` is an `Attribute`, the string `f"{ast.unparse(node.func.value)}.{node.func.attr}"`. -/
def attributesOf (t : Node) : List String :=
  (walk t).filterMap fun n =>
    match n with | .call (.attr v a) _ => some (unparse v ++ "." ++ a) | _ => none

/-- Method-name list built for one `ClassDef` node `c`:
`[n.name for n in ast.walk(c) if isinstance(n, ast.FunctionDef)]`. -/
def classMethodNames (c : Node) : List String := (walk c).filterMap fnName

/-- The `classes` list of `CodeAnalysisTool._run`: one
`{'name': ..., 'methods': ...}` entry per `ClassDef` node of the walk. -/
def classesOf (t : Node) : List (String × List String) :=
  (walk t).filterMap fun n =>
    match n with | c@(.classDef nm _) => some (nm, classMethodNames c) | _ => none

/-- Contribution of one walked node to the `variables` list of
`CodeAnalysisTool._run`: an `Assign` node yields one
`{'name': target.id, 'value': ast.unparse(node.value)}` entry per target that
is a plain `Name`; every other node yields nothing. -/
def assignPairs : Node → List (String × String)
  | .assign ts v => ts.filterMap fun tg =>
      match tg with | .name i => some (i, unparse v) | _ => none
  | _ => []

/-- The `variables` list of `CodeAnalysisTool._run`. -/
def variablesOf (t : Node) : List (String × String) :=
  (walk t).flatMap assignPairs

/-- The success payload of `CodeAnalysisTool._run` (the five fact lists of the
returned dict, besides `"success": True`).  The field `vars` stands for the
dict key `"variables"`, which is not a usable identifier in Lean 4. -/
structure CodeFacts where
  imports : List String
  function_calls : List String
  attributes : List String
  classes : List (String × List String)
  vars : List (String × String)
deriving DecidableEq

/-- Result of `CodeAnalysisTool._run`: the `try` body returns the fact dict
with `success=True`; any exception (in practice: `ast.parse` raising
`SyntaxError`) is caught and turned into `{"error": str(e), "success": False}`. -/
inductive CodeAnalysisResult where
  | ok (facts : CodeFacts)
  | err (msg : String)
deriving DecidableEq

/-- Embedding of `CodeAnalysisTool._run`.  The parser front-end is external
(`ast.parse`), so its outcome is the argument: `.ok tree` when the source text
parses to `tree`, `.error msg` when parsing raises `SyntaxError(msg)`. -/
def CodeAnalysisTool_run : Except String Node → CodeAnalysisResult
  | .error e => .err e
  | .ok tree => .ok
      { imports := importsOf tree
        function_calls := function_callsOf tree
        attributes := attributesOf tree
        classes := classesOf tree
        vars := variablesOf tree }

/-- The `success` field of the dict returned by `CodeAnalysisTool._run`. -/
def CodeAnalysisResult.success : CodeAnalysisResult → Bool
  | .ok _ => true
  | .err _ => false

/-- The `error` field of the dict returned by `CodeAnalysisTool._run`
(present exactly on failure). -/
def CodeAnalysisResult.errorMsg : CodeAnalysisResult → Option String
  | .ok _ => none
  | .err e => some e

/-- Keys of the dict returned by `CodeAnalysisTool._run`, in source order. -/
def CodeAnalysisResult.keys : CodeAnalysisResult → List String
  | .ok _ => ["imports", "function_calls", "attributes", "classes", "variables", "success"]
  | .err _ => ["error", "success"]

/-- Character class `[A-Z_]` of the `global_variables` regular expression. -/
def isUpperUnder (c : Char) : Bool :=
  (decide (65 ≤ c.toNat) && decide (c.toNat ≤ 90)) || c == '_'

/-- Character class `\s` (ASCII part: space, tab, newline, carriage return,
vertical tab, form feed).  The tools are only ever exercised on ASCII source
text in this development, so the Unicode extension of `\s` is not modelled. -/
def isPySpace (c : Char) : Bool :=
  c == ' ' || c == '\t' || c == '\n' || c == '\r' || c == '\x0b' || c == '\x0c'

/-- Character class `[A-Za-z]`. -/
def isAsciiLetter (c : Char) : Bool :=
  (decide (65 ≤ c.toNat) && decide (c.toNat ≤ 90)) ||
  (decide (97 ≤ c.toNat) && decide (c.toNat ≤ 122))

/-- Does `\s*=` match a prefix of `l`?  Exact backtracking semantics: either
`=` is matched right away (zero whitespace), or one whitespace character is
consumed and the search continues. -/
def spaceThenEq : List Char → Bool
  | [] => false
  | c :: r => c == '=' || (isPySpace c && spaceThenEq r)

/-- Does `[A-Z_]*\s*=` match a prefix of `l`?  Either the star is left with
zero further repetitions (then `\s*=` must match here), or one more `[A-Z_]`
character is consumed.  This enumerates every way the backtracking matcher can
split the input, so it is boolean-equivalent to the regex fragment. -/
def upperStarSpaceEq (l : List Char) : Bool :=
  spaceThenEq l ||
    (match l with
     | [] => false
     | c :: r => isUpperUnder c && upperStarSpaceEq r)

/-- Does `[A-Z_]+\s*=` match a prefix of `l` (at least one `[A-Z_]` character,
then `upperStarSpaceEq` for the rest)? -/
def gvMatchAt : List Char → Bool
  | [] => false
  | c :: r => isUpperUnder c && upperStarSpaceEq r

/-- Scans for a position just after a newline where `[A-Z_]+\s*=` matches
(the non-initial line starts that `^` can anchor at under `re.MULTILINE`). -/
def gvScan : List Char → Bool
  | [] => false
  | c :: r => (c == '\n' && gvMatchAt r) || gvScan r

/-- Embedding of `bool(re.search(r"^[A-Z_]+\s*=", code, re.MULTILINE))` on a
character list: under `re.MULTILINE` the anchor `^` matches at the start of
the string and right after every newline, so the search succeeds iff
`[A-Z_]+\s*=` matches at one of those positions.  Note that `\s` also matches
newlines, so a match may continue across lines. -/
def gvSearch (l : List Char) : Bool := gvMatchAt l || gvScan l

/-- The `global_variables` entry of the `anti_patterns` dict of
`SolutionValidator._run`:
`bool(re.search(r"^[A-Z_]+\s*=", code, re.MULTILINE))`. -/
def global_variables_det (code : String) : Bool := gvSearch code.data

/-- Is `needle` a prefix of `hay`? -/
def startsWithL : List Char → List Char → Bool
  | _, [] => true
  | [], _ :: _ => false
  | h :: hs, n :: ns => h == n && startsWithL hs ns

/-- Does `needle` occur as a contiguous substring of `hay`?  This is the
semantics of Python's `needle in hay` on strings. -/
def containsL (hay needle : List Char) : Bool :=
  startsWithL hay needle ||
    (match hay with
     | [] => false
     | _ :: t => containsL t needle)

/-- The `bare_except` entry of the `anti_patterns` dict of
`SolutionValidator._run`: the raw-text test `"except:" in code`. -/
def bare_except_det (code : String) : Bool :=
  containsL code.data "except:".data

/-- Suffix of `hay` just after the first occurrence of `needle`, or `none` if
`needle` does not occur. -/
def dropAfterFirst (needle : List Char) : List Char → Option (List Char)
  | [] => if startsWithL [] needle then some [] else none
  | c :: t =>
      if startsWithL (c :: t) needle then some (List.drop needle.length (c :: t))
      else dropAfterFirst needle t

/-- Do the `needles` occur in `hay` in order, each strictly after the end of
the previous one?  Searching greedily for the first occurrence of each needle
is complete: if occurrences in order exist at all, they also exist when every
needle is moved to its earliest possible position. -/
def seqFound (hay : List Char) : List (List Char) → Bool
  | [] => true
  | n :: ns =>
      match dropAfterFirst n hay with
      | none => false
      | some rest => seqFound rest ns

/-- Split on `'\n'` (the only character the regex metacharacter `.` refuses to
match; `'\r'` stays inside a segment, exactly as `.` treats it). -/
def splitNl : List Char → List (List Char)
  | [] => [[]]
  | c :: r =>
      if c == '\n' then [] :: splitNl r
      else
        match splitNl r with
        | [] => [[c]]
        | l :: ls => (c :: l) :: ls

/-- Does `def.*\((.*=\[\].*|.*={}.*)\)` match inside one newline-free
segment?  A match is `"def"`, then any characters, then `"("`, then any
characters containing `"=[]"` (or `"={}"`), then any characters, then `")"`;
boolean-wise that is exactly: the four substrings occur in order. -/
def lineHasMut (l : List Char) : Bool :=
  seqFound l [['d','e','f'], ['('], ['=','[',']'], [')']] ||
  seqFound l [['d','e','f'], ['('], ['=', Char.ofNat 123, Char.ofNat 125], [')']]

/-- The `mutable_defaults` entry of the `anti_patterns` dict of
`SolutionValidator._run`:
`bool(re.search(r"def.*\((.*=\[\].*|.*={}.*)\)", code))`.
Every character of the pattern is either a literal (none of which is a
newline) or `.`, which matches anything except `'\n'`; hence any match lies
entirely inside one `'\n'`-free segment of the text, and conversely a match
inside a segment is a match in the text, so searching segmentwise is
boolean-equivalent to `re.search` on the whole text. -/
def mutable_defaults_det (code : String) : Bool :=
  (splitNl code.data).any lineHasMut

/-- Does `\s*[A-Za-z]` match a prefix of `l` (zero whitespace and a letter
right away, or one whitespace character consumed and the search continued)? -/
def spacesThenLetter : List Char → Bool
  | [] => false
  | c :: r => isAsciiLetter c || (isPySpace c && spacesThenLetter r)

/-- Embedding of `bool(re.search(r":\s*[A-Za-z]+[\[\],\s]*", code))`: the
trailing groups `[A-Za-z]+` beyond its first letter and `[\[\],\s]*` can
always match the empty string, so a match exists iff some `':'` is followed by
`\s*` and then one `[A-Za-z]` character. -/
def thScan : List Char → Bool
  | [] => false
  | c :: r => (c == ':' && spacesThenLetter r) || thScan r

/-- The `has_type_hints` entry of the `quality_checks` dict of
`SolutionValidator._run`. -/
def has_type_hints_det (code : String) : Bool := thScan code.data

/-- The `has_docstring` entry of the `quality_checks` dict:
`'\x22\x22\x22' in code or "\x27\x27\x27" in code`. -/
def has_docstring_det (code : String) : Bool :=
  containsL code.data "\x22\x22\x22".data || containsL code.data "\x27\x27\x27".data

/-- The `has_error_handling` entry of the `quality_checks` dict:
`"try:" in code and "except" in code`. -/
def has_error_handling_det (code : String) : Bool :=
  containsL code.data "try:".data && containsL code.data "except".data

/-- Python `line.rstrip().endswith(' ')`: after stripping all trailing
whitespace the line cannot end in a space, so this is constantly false; it is
embedded faithfully nonetheless. -/
def rstripEndsSpace (l : List Char) : Bool :=
  (l.reverse.dropWhile isPySpace).head? == some ' '

/-- Embedding of `SolutionValidator._check_pep8`: no tab anywhere, no line
whose `rstrip()` ends in a space, and every line at most 79 characters.
`str.splitlines` is modelled as splitting on `'\n'` (the further Unicode line
terminators it also splits on are not exercised here); the one observable
difference, a trailing empty segment when the text ends in `'\n'`, satisfies
both per-line checks vacuously. -/
def check_pep8 (code : String) : Bool :=
  (code.data.count '\t' == 0) &&
  (!(splitNl code.data).any rstripEndsSpace) &&
  ((splitNl code.data).all fun l => decide (l.length ≤ 79))

/-- The `quality_checks` dict of `SolutionValidator._run`. -/
structure QualityChecks where
  has_docstring : Bool
  has_type_hints : Bool
  has_error_handling : Bool
  follows_pep8 : Bool
deriving DecidableEq

/-- The `anti_patterns` dict of `SolutionValidator._run`. -/
structure AntiPatterns where
  bare_except : Bool
  global_variables : Bool
  mutable_defaults : Bool
deriving DecidableEq

/-- The `quality_checks` dict, assembled as in the source. -/
def qualityChecksOf (code : String) : QualityChecks :=
  { has_docstring := has_docstring_det code
    has_type_hints := has_type_hints_det code
    has_error_handling := has_error_handling_det code
    follows_pep8 := check_pep8 code }

/-- The `anti_patterns` dict, assembled as in the source. -/
def antiPatternsOf (code : String) : AntiPatterns :=
  { bare_except := bare_except_det code
    global_variables := global_variables_det code
    mutable_defaults := mutable_defaults_det code }

/-- Issue string produced for one walked node of a class body: for a
`FunctionDef` with `args = [a.arg for a in method.args.args]`, the check
`len(args) > 0 and args[0] != 'self'` appends
`f"Method '{method.name}' missing 'self' parameter"`. -/
def methodIssue : Node → Option String
  | .functionDef nm args _ _ =>
      match args with
      | [] => none
      | a0 :: _ =>
          if a0 = "self" then none
          else some ("Method \x27" ++ nm ++ "\x27 missing \x27self\x27 parameter")
  | _ => none

/-- The `class_issues` list of `SolutionValidator._run`: for every `ClassDef`
node of the walk, every `FunctionDef` in the walk of that class is checked
with `methodIssue`. -/
def classIssuesOf (t : Node) : List String :=
  (walk t).flatMap fun n =>
    match n with
    | c@(.classDef _ _) => (walk c).filterMap methodIssue
    | _ => []

/-- Result of `SolutionValidator._run`: the dict with `success=True`, or
`{"error": str(e), "success": False}` when an exception escapes the `try`
body (in practice: `ast.parse` raising `SyntaxError`). -/
inductive SVResult where
  | ok (quality_checks : QualityChecks) (anti_patterns : AntiPatterns) (class_issues : List String)
  | err (msg : String)
deriving DecidableEq

/-- Embedding of `SolutionValidator._run`.  In the source the two dicts are
computed before `ast.parse(code)` is called, but all of it is inside the same
`try`, so a parse failure discards them and yields the error dict; on parse
success the result is exactly the three computed pieces. -/
def SolutionValidator_run (code : String) : Except String Node → SVResult
  | .error e => .err e
  | .ok tree => .ok (qualityChecksOf code) (antiPatternsOf code) (classIssuesOf tree)

/-- The `success` field of the dict returned by `SolutionValidator._run`. -/
def SVResult.success : SVResult → Bool
  | .ok _ _ _ => true
  | .err _ => false

/-- The `error` field of the dict returned by `SolutionValidator._run`. -/
def SVResult.errorMsg : SVResult → Option String
  | .ok _ _ _ => none
  | .err e => some e

/-- Keys of the dict returned by `SolutionValidator._run`, in source order. -/
def SVResult.keys : SVResult → List String
  | .ok _ _ _ => ["quality_checks", "anti_patterns", "class_issues", "success"]
  | .err _ => ["error", "success"]

/-- Outcome of `subprocess.run(["pip", "list", "--format=json"],
capture_output=True, text=True)` when the subprocess could be launched.
No `check=True` is passed, so a non-zero exit status does not raise. -/
structure CompletedProcess where
  returncode : Int
  stdout : String
  stderr : String
deriving DecidableEq

/-- The fixed manifest-file list `common_dep_files` of
`DependencyAnalyzer._run`. -/
def common_dep_files : List String :=
  ["requirements.txt", "pyproject.toml", "setup.py", "Pipfile", "poetry.lock"]

/-- Result of `DependencyAnalyzer._run`: on success the dict carries
`installed_packages` (the raw stdout of the pip query) and
`dependency_files`; any exception is caught and becomes
`{"error": str(e), "success": False}`. -/
inductive DepResult where
  | ok (installed_packages : String) (dependency_files : List String)
  | err (msg : String)
deriving DecidableEq

/-- Embedding of `DependencyAnalyzer._run`.  The machine effects are
parameters: `pip` is the outcome of the `subprocess.run` call (`.error msg`
when launching the subprocess raises, e.g. `FileNotFoundError` for a missing
`pip` binary; no timeout is passed in the source, so no timeout exception can
occur), and `fileExists` is the filesystem's answer to
`(Path(project_path) / file).exists()`, which returns `False` rather than
raising when the directory does not exist.  The pip query runs first in the
source, so an exception there aborts the whole call before any manifest
check. -/
def DependencyAnalyzer_run (project_path : String)
    (pip : Except String CompletedProcess) (fileExists : String → Bool) : DepResult :=
  match pip with
  | .error e => .err e
  | .ok r =>
      .ok r.stdout (common_dep_files.filter fun f => fileExists (project_path ++ "/" ++ f))

/-- The `success` field of the dict returned by `DependencyAnalyzer._run`. -/
def DepResult.success : DepResult → Bool
  | .ok _ _ => true
  | .err _ => false

/-- Whether launching the pip subprocess succeeded. -/
def pipLaunched : Except String CompletedProcess → Bool
  | .ok _ => true
  | .error _ => false

mutual
/-- Depth-first (preorder) enumeration of the nodes of a tree.  It lists the
node and then the nodes of its child subtrees in field order — a structural
reference traversal; `walkF_perm_dfsLs` below shows the breadth-first
`ast.walk` enumerates exactly the same nodes, in a different order. -/
def dfsN : Node → List Node
  | .module b => .module b :: dfsLs b
  | .importN s => [.importN s]
  | .classDef nm b => .classDef nm b :: dfsLs b
  | .functionDef nm as ds b => .functionDef nm as ds b :: (dfsLs ds ++ dfsLs b)
  | .assign ts v => .assign ts v :: (dfsLs ts ++ dfsN v)
  | .name i => [.name i]
  | .attr v a => .attr v a :: dfsN v
  | .call f args => .call f args :: (dfsN f ++ dfsLs args)
  | .constant t => [.constant t]
  | .listLit es => .listLit es :: dfsLs es
  | .dictLit ks vs => .dictLit ks vs :: (dfsLs ks ++ dfsLs vs)
  | .tuple es => .tuple es :: dfsLs es
  | .ret v => .ret v :: (match v with | none => [] | some n => dfsN n)
  | .passStmt => [.passStmt]
  | .exprStmt v => .exprStmt v :: dfsN v
  | .tryStmt b hs => .tryStmt b hs :: (dfsLs b ++ dfsLs hs)
  | .other cs => .other cs :: dfsLs cs

/-- Depth-first enumeration of a forest. -/
def dfsLs : List Node → List Node
  | [] => []
  | n :: t => dfsN n ++ dfsLs t
end

/-- The names of every `FunctionDef` node anywhere in the subtree of `n`, in
depth-first order — the structural reading of "all functions defined inside
`n`"; nested functions are included. -/
def allFnNames (n : Node) : List String := (dfsN n).filterMap fnName

/-- Tree of the source text
`class C:\n    def m(self):\n        def inner():\n            pass`
(a class whose single method contains a nested function). -/
def nestedMethodTree : Node :=
  .module [.classDef "C"
    [.functionDef "m" ["self"] [] [.functionDef "inner" [] [] [.passStmt]]]]

/-- Tree of the chained assignment `a = b = 1` (one `Assign` node with the
two `Name` targets `a` and `b`). -/
def chainedAssignTree : Node :=
  .module [.assign [.name "a", .name "b"] (.constant "1")]

/-- Tree of `class C:\n  def get():\n    return 1` (Scenario C of the
specification: a zero-parameter method). -/
def scenarioCTree : Node :=
  .module [.classDef "C" [.functionDef "get" [] [] [.ret (some (.constant "1"))]]]

/-- Tree of `x = \x22except:\x22` — a single assignment of a string literal;
the module contains no `Try` statement and hence no exception handler. -/
def stringLiteralTree : Node :=
  .module [.assign [.name "x"] (.constant "\x27except:\x27")]

/-- Tree of `x = 1`. -/
def xAssignTree : Node := .module [.assign [.name "x"] (.constant "1")]

/-- Is a node a `Try` statement? -/
def isTry : Node → Bool
  | .tryStmt _ _ => true
  | _ => false

/-- ASCII lower-case letter (used to describe inputs of theorems about the
`global_variables` detector; not part of the embedded code). -/
def isLowerAlpha (c : Char) : Bool :=
  decide (97 ≤ c.toNat) && decide (c.toNat ≤ 122)

/-- ASCII digit (used to describe inputs of theorems about the
`global_variables` detector; not part of the embedded code). -/
def isDigitCh (c : Char) : Bool :=
  decide (48 ≤ c.toNat) && decide (c.toNat ≤ 57)

theorem countL_append (a b : List Node) : countL (a ++ b) = countL a + countL b := by
  induction a with
  | nil => simp [countL]
  | cons x xs ih => simp [countL, ih]; omega

theorem countN_children (n : Node) : countN n = 1 + countL n.children := by
  cases n with
  | ret v => cases v <;> simp [countN, countL, Node.children]
  | _ => simp [countN, countL, Node.children, countL_append] <;> omega

theorem walkF_fuelIrrel (f : Nat) : ∀ (g : Nat) (q : List Node),
    countL q ≤ f → countL q ≤ g → walkF f q = walkF g q := by
  induction f with
  | zero =>
      intro g q hf _
      cases q with
      | nil => simp [walkF]
      | cons n rest =>
          have hn := countN_children n
          simp [countL] at hf
          omega
  | succ f ih =>
      intro g q hf hg
      cases q with
      | nil => simp [walkF]
      | cons n rest =>
          have hn := countN_children n
          simp [countL] at hf hg
          cases g with
          | zero => omega
          | succ g' =>
              simp only [walkF]
              congr 1
              apply ih
              · rw [countL_append]; omega
              · rw [countL_append]; omega

theorem walk_eq_walkF (t : Node) (f : Nat) (h : countN t ≤ f) : walk t = walkF f [t] := by
  unfold walk
  apply walkF_fuelIrrel <;> simp [countL] <;> omega

theorem walkF_childless : ∀ (f : Nat) (q : List Node),
    (∀ n ∈ q, n.children = []) → q.length ≤ f → walkF f q = q := by
  intro f
  induction f with
  | zero =>
      intro q _ hlen
      cases q with
      | nil => simp [walkF]
      | cons n rest => simp at hlen
  | succ f ih =>
      intro q hch hlen
      cases q with
      | nil => simp [walkF]
      | cons n rest =>
          have h0 : n.children = [] := hch n (by simp)
          simp only [walkF, h0, List.append_nil]
          congr 1
          apply ih
          · intro m hm; exact hch m (by simp [hm])
          · simp at hlen; omega

theorem dfsLs_append (a b : List Node) : dfsLs (a ++ b) = dfsLs a ++ dfsLs b := by
  induction a with
  | nil => simp [dfsLs]
  | cons x xs ih => simp [dfsLs, ih]

theorem dfsN_eq (n : Node) : dfsN n = n :: dfsLs n.children := by
  cases n with
  | ret v => cases v <;> simp [dfsN, dfsLs, Node.children]
  | _ => simp [dfsN, dfsLs, Node.children, dfsLs_append]

theorem walkF_perm_dfsLs (f : Nat) : ∀ (q : List Node),
    countL q ≤ f → List.Perm (walkF f q) (dfsLs q) := by
  induction f with
  | zero =>
      intro q hf
      cases q with
      | nil => simp [walkF, dfsLs]
      | cons n rest =>
          have hn := countN_children n
          simp [countL] at hf
          omega
  | succ f ih =>
      intro q hf
      cases q with
      | nil => simp [walkF, dfsLs]
      | cons n rest =>
          have hn := countN_children n
          simp [countL] at hf
          have h1 : countL (rest ++ n.children) ≤ f := by rw [countL_append]; omega
          have h2 := ih (rest ++ n.children) h1
          have h3 : List.Perm (walkF f (rest ++ n.children)) (dfsLs n.children ++ dfsLs rest) :=
            h2.trans (by rw [dfsLs_append]; exact List.perm_append_comm)
          have h4 := h3.cons n
          simpa [walkF, dfsLs, dfsN_eq] using h4

theorem walk_perm_dfsN (t : Node) : List.Perm (walk t) (dfsN t) := by
  have h := walkF_perm_dfsLs (countN t) [t] (by simp [countL])
  simpa [walk, dfsLs] using h

/-- Claim C2 — counterexample.  The claim states that when the package-manager
query fails because the binary is unavailable, the scan still returns
successfully with the manifest-presence list populated.  In the code the
`subprocess.run` call raising (e.g. `FileNotFoundError` for a missing `pip`)
aborts the whole `try` body before the manifest check even runs, so the scan
returns `success=False` with no `dependency_files` at all — even though every
manifest file exists (`fun _ => true`). -/
theorem C2_counterexample :
    DependencyAnalyzer_run "/proj"
        (Except.error "[Errno 2] No such file or directory: \x27pip\x27") (fun _ => true) =
      DepResult.err "[Errno 2] No such file or directory: \x27pip\x27" ∧
    (DependencyAnalyzer_run "/proj"
        (Except.error "[Errno 2] No such file or directory: \x27pip\x27")
        (fun _ => true)).success = false := by
  exact ⟨rfl, rfl⟩

/-- Claim C2 — amended.  If the pip subprocess completes (with any exit
status — the code passes no `check=True`, so the status is ignored and
nothing is "marked failed"), the scan returns `success=True` with
`dependency_files` populated and `installed_packages` set to the raw stdout;
if launching the subprocess raises (unavailable binary — no timeout is passed,
so a timeout cannot occur), the entire scan fails with only the error
message. -/
theorem C2_amended : ∀ (p : String) (fs : String → Bool) (r : CompletedProcess) (e : String),
    DependencyAnalyzer_run p (Except.ok r) fs =
      DepResult.ok r.stdout (common_dep_files.filter fun f => fs (p ++ "/" ++ f)) ∧
    DependencyAnalyzer_run p (Except.error e) fs = DepResult.err e := by
  intro p fs r e
  exact ⟨rfl, rfl⟩

/-- Claim C3 — counterexample.  The claim states that a `project_path` that
is not a readable directory makes the scan fail.  In the code
`(Path(project_path) / file).exists()` simply returns `False` for every
manifest when the directory does not exist, so the scan succeeds with an
empty `dependency_files` list instead of failing. -/
theorem C3_counterexample :
    DependencyAnalyzer_run "/nonexistent" (Except.ok ⟨0, "[]", ""⟩) (fun _ => false) =
      DepResult.ok "[]" [] ∧
    (DependencyAnalyzer_run "/nonexistent" (Except.ok ⟨0, "[]", ""⟩)
        (fun _ => false)).success = true := by
  exact ⟨rfl, rfl⟩

/-- Claim C3 — amended.  The success flag of the scan depends only on whether
the pip subprocess could be launched, never on the project path or the
filesystem: a path that is not a readable directory yields `success=True`
with an empty `dependency_files` list, and the only failing condition is an
exception from the pip invocation. -/
theorem C3_amended :
    (∀ (p : String) (pip : Except String CompletedProcess) (fs : String → Bool),
      (DependencyAnalyzer_run p pip fs).success = pipLaunched pip) ∧
    (∀ (p : String) (r : CompletedProcess),
      DependencyAnalyzer_run p (Except.ok r) (fun _ => false) = DepResult.ok r.stdout []) := by
  constructor
  · intro p pip fs
    cases pip <;> rfl
  · intro p r
    rfl

/-- Claim C4 — counterexample.  The claim states that the `classes` entry
lists exactly the directly declared methods and that functions nested inside
methods are not separately listed.  For
`class C:\n    def m(self):\n        def inner():\n            pass`
the code walks the whole class subtree with `ast.walk`, so the nested
function `inner` is listed alongside the method `m`. -/
theorem C4_counterexample :
    classesOf nestedMethodTree = [("C", ["m", "inner"])] ∧
    classesOf nestedMethodTree ≠ [("C", ["m"])] := by
  exact ⟨by decide, by decide⟩

/-- Claim C5 — counterexample.  The claim states that assignments with
multiple targets contribute no `variables` entries.  For the chained
assignment `a = b = 1` (one `Assign` node with two `Name` targets) the code
iterates over all targets and records one entry per `Name` target, so two
entries are produced. -/
theorem C5_counterexample :
    variablesOf chainedAssignTree = [("a", "1"), ("b", "1")] ∧
    variablesOf chainedAssignTree ≠ [] := by
  exact ⟨by decide, by decide⟩

/-- Claim C7 — counterexample.  The claim states that the mutable-default
detector reports one finding per offending parameter, identifying it (so one
finding for `def f(data=[]): pass` and two for `def g(a=[], b=[]): pass`).
The code computes a single whole-text boolean,
`bool(re.search(r"def.*\((.*=\[\].*|.*={}.*)\)", code))`: the complete
anti-pattern output is identical on the one-offender and the two-offender
input, so it cannot count findings or identify parameters. -/
theorem C7_counterexample :
    mutable_defaults_det "def f(data=[]): pass" = true ∧
    mutable_defaults_det "def g(a=[], b=[]): pass" = true ∧
    antiPatternsOf "def f(data=[]): pass" = antiPatternsOf "def g(a=[], b=[]): pass" := by
  exact ⟨by decide, by decide, by decide⟩

/-- Claim C7 — amended.  The mutable-default detector is a single boolean per
source text: it reports the anti-pattern as present for a text containing
`def … ( … =[] … )` or `def … ( … ={} … )` on one line (true for
`def f(data=[]): pass` and for `def f(data={}): pass`, false when no such
default occurs), without identifying parameters or counting occurrences. -/
theorem C7_amended :
    mutable_defaults_det "def f(data=[]): pass" = true ∧
    mutable_defaults_det "def f(data=\x7b\x7d): pass" = true ∧
    mutable_defaults_det "def f(data=None): pass" = false := by
  exact ⟨by decide, by decide, by decide⟩

/-- Claim C8 — counterexample.  The claim states that `validateSolution`
performs the same computation as `analyzeCode`.  On the same parsed input
`x = 1` the two entry points return dicts with different key sets
(`imports`/`function_calls`/`attributes`/`classes`/`variables` vs
`quality_checks`/`anti_patterns`/`class_issues`), so they do not produce the
same analysis. -/
theorem C8_counterexample :
    (CodeAnalysisTool_run (Except.ok xAssignTree)).keys ≠
      (SolutionValidator_run "x = 1" (Except.ok xAssignTree)).keys := by
  decide

/-- Claim C8 — amended.  The two entry points are different computations:
`analyzeCode` extracts structural facts while `validateSolution` computes
quality booleans, anti-pattern booleans and class issues.  What they do share
is the parser boundary behaviour: on the same parse outcome both succeed or
both fail, with the same error message on failure. -/
theorem C8_amended : ∀ (code : String) (parsed : Except String Node),
    (CodeAnalysisTool_run parsed).success = (SolutionValidator_run code parsed).success ∧
    (CodeAnalysisTool_run parsed).errorMsg = (SolutionValidator_run code parsed).errorMsg := by
  intro code parsed
  cases parsed <;> exact ⟨rfl, rfl⟩

/-- Claim C9 — confirmed.  When the parser front-end fails (any input that is
not valid Python, such as `def f(:`, makes `ast.parse` raise a
`SyntaxError`), `analyzeCode` catches it at the component boundary and
returns the structured dict `{"error": str(e), "success": False}` — the
embedding is a total function, so no fault propagates. -/
theorem C9_confirmed : ∀ (msg : String),
    CodeAnalysisTool_run (Except.error msg) = CodeAnalysisResult.err msg ∧
    (CodeAnalysisTool_run (Except.error msg)).success = false ∧
    (CodeAnalysisTool_run (Except.error msg)).errorMsg = some msg := by
  intro msg
  exact ⟨rfl, rfl, rfl⟩

theorem countL_map_name (ids : List String) : countL (ids.map Node.name) = ids.length := by
  induction ids with
  | nil => simp [countL]
  | cons i is ih => simp [countL, countN, ih]; omega

theorem walk_module_assign (ts : List Node) (v : Node)
    (hch : ∀ n ∈ ts, n.children = []) (hv : v.children = [])
    (hts : countL ts = ts.length) (hvc : countN v = 1) :
    walk (.module [.assign ts v]) =
      [Node.module [Node.assign ts v], Node.assign ts v] ++ ts ++ [v] := by
  have hcn : countN (Node.module [Node.assign ts v]) = ts.length + 3 := by
    simp [countN, countL, hts, hvc]; omega
  rw [walk_eq_walkF _ (ts.length + 3) (le_of_eq hcn)]
  have h1 : walkF (ts.length + 3) [Node.module [Node.assign ts v]] =
      Node.module [Node.assign ts v] :: walkF (ts.length + 2) [Node.assign ts v] := rfl
  have h2 : walkF (ts.length + 2) [Node.assign ts v] =
      Node.assign ts v :: walkF (ts.length + 1) (ts ++ [v]) := rfl
  have h3 : walkF (ts.length + 1) (ts ++ [v]) = ts ++ [v] := by
    apply walkF_childless
    · intro n hn
      rcases List.mem_append.mp hn with h | h
      · exact hch n h
      · simp at h; subst h; exact hv
    · simp
  rw [h1, h2, h3]
  simp

theorem flatMap_map_name (l : List String) : (l.map Node.name).flatMap assignPairs = [] := by
  induction l with
  | nil => rfl
  | cons x xs ih => simp [assignPairs, ih]

theorem assignPairs_map_name (ids : List String) (v : String) :
    assignPairs (.assign (ids.map Node.name) (.constant v)) = ids.map fun i => (i, v) := by
  induction ids with
  | nil => rfl
  | cons x xs ih =>
      simp only [assignPairs, unparse, List.map_cons, List.filterMap_cons] at ih ⊢
      rw [ih]

/-- Claim C4 — amended.  The `methods` entry built for a class node lists the
names of all `FunctionDef` nodes anywhere in the class's subtree — nested
functions inside methods included — in breadth-first order: up to order it is
exactly the depth-first collection `allFnNames` of every function defined
inside the class, and on the counterexample class the concrete order is the
direct method first, the nested function after it. -/
theorem C4_amended :
    (∀ (c : Node), List.Perm (classMethodNames c) (allFnNames c)) ∧
    classMethodNames (.classDef "C"
      [.functionDef "m" ["self"] [] [.functionDef "inner" [] [] [.passStmt]]]) = ["m", "inner"] := by
  constructor
  · intro c
    exact (walk_perm_dfsN c).filterMap fnName
  · decide

/-- Claim C5 — amended.  The `variables` list contains one
`(name, value-expression-text)` pair per `Name` target of each assignment —
for a multi-target (chained) assignment that is one pair per name target, in
target order — while attribute, subscript or tuple targets still contribute
nothing. -/
theorem C5_amended :
    (∀ (ids : List String) (v : String),
      variablesOf (.module [.assign (ids.map Node.name) (.constant v)]) =
        ids.map fun i => (i, v)) ∧
    variablesOf (.module [.assign [.attr (.name "self") "x"] (.constant "1")]) = [] ∧
    variablesOf (.module [.assign [.tuple [.name "a", .name "b"]] (.constant "1")]) = [] := by
  refine ⟨?_, by decide, by decide⟩
  intro ids v
  have hch : ∀ n ∈ ids.map Node.name, n.children = [] := by
    intro n hn
    obtain ⟨i, _, rfl⟩ := List.mem_map.mp hn
    rfl
  have hw := walk_module_assign (ids.map Node.name) (.constant v) hch rfl
    (by simpa using countL_map_name ids) rfl
  unfold variablesOf
  rw [hw]
  simp only [List.append_assoc, List.flatMap_append, List.flatMap_cons, List.flatMap_nil,
    flatMap_map_name, assignPairs_map_name]
  simp [assignPairs]

/-- Claim C6 — confirmed.  A walked method node produces a
missing-`self` issue exactly when its parameter list is non-empty and its
first parameter is not named `self`; in particular a zero-parameter method is
never flagged, so `class C:\n  def get():\n    return 1` (Scenario C) yields
no finding, while a method whose first parameter is `x` yields exactly one
finding naming it. -/
theorem C6_confirmed :
    (∀ (nm : String) (args : List String) (ds body : List Node),
      ((methodIssue (.functionDef nm args ds body)).isSome = true) ↔
        (args ≠ [] ∧ args.head? ≠ some "self")) ∧
    classIssuesOf scenarioCTree = [] ∧
    classIssuesOf (.module [.classDef "D" [.functionDef "m" ["x"] [] [.passStmt]]]) =
      ["Method \x27m\x27 missing \x27self\x27 parameter"] := by
  refine ⟨?_, by decide, by decide⟩
  intro nm args ds body
  cases args with
  | nil => simp [methodIssue]
  | cons a0 rest =>
      by_cases h : a0 = "self"
      · simp [methodIssue, h]
      · simp [methodIssue, h]

/-- Witness for `C6_confirmed` at a concrete one-parameter method `m(x)`. -/
theorem C6_witness :
    (methodIssue (.functionDef "m" ["x"] [] [])).isSome = true :=
  (C6_confirmed.1 "m" ["x"] [] []).mpr ⟨by decide, by decide⟩

theorem startsWithL_iff (n : List Char) : ∀ (h : List Char),
    startsWithL h n = true ↔ ∃ r, h = n ++ r := by
  induction n with
  | nil => intro h; simp [startsWithL]
  | cons c ns ih =>
      intro h
      cases h with
      | nil => simp [startsWithL]
      | cons x xs =>
          simp only [startsWithL, Bool.and_eq_true, beq_iff_eq, List.cons_append]
          constructor
          · rintro ⟨rfl, hs⟩
            obtain ⟨r, rfl⟩ := (ih xs).mp hs
            exact ⟨r, rfl⟩
          · rintro ⟨r, hr⟩
            injection hr with h1 h2
            exact ⟨h1, (ih xs).mpr ⟨r, h2⟩⟩

theorem containsL_iff (n : List Char) : ∀ (h : List Char),
    containsL h n = true ↔ ∃ l r, h = l ++ n ++ r := by
  intro h
  induction h with
  | nil =>
      have h0 : containsL [] n = startsWithL [] n := by
        show (startsWithL [] n || false) = startsWithL [] n
        simp
      rw [h0, startsWithL_iff]
      constructor
      · rintro ⟨r, hr⟩
        exact ⟨[], r, by simpa using hr⟩
      · rintro ⟨l, r, hr⟩
        have h1 := hr.symm
        simp only [List.append_eq_nil] at h1
        exact ⟨[], by simp [h1.1.2]⟩
  | cons x xs ih =>
      have hstep : containsL (x :: xs) n = (startsWithL (x :: xs) n || containsL xs n) := rfl
      rw [hstep]
      simp only [Bool.or_eq_true]
      rw [startsWithL_iff, ih]
      constructor
      · rintro (⟨r, hr⟩ | ⟨l, r, hr⟩)
        · exact ⟨[], r, by simpa using hr⟩
        · exact ⟨x :: l, r, by simp [hr]⟩
      · rintro ⟨l, r, hr⟩
        cases l with
        | nil => exact Or.inl ⟨r, by simpa using hr⟩
        | cons y ys =>
            simp only [List.cons_append] at hr
            injection hr with h1 h2
            exact Or.inr ⟨ys, r, h2⟩

/-- Claim C10 — confirmed.  The bare-except check is a pure substring test:
it reports the anti-pattern as present exactly when the raw text contains
`except:` as a substring.  Consequently the source text
`x = \x22except:\x22` — a single assignment of a string literal, whose tree
(`stringLiteralTree`) contains no `Try` statement and hence no exception
handler — is still reported as containing a bare except. -/
theorem C10_confirmed :
    (∀ (code : String), bare_except_det code = true ↔
      ∃ l r, code.data = l ++ "except:".data ++ r) ∧
    bare_except_det "x = \x22except:\x22" = true ∧
    (antiPatternsOf "x = \x22except:\x22").bare_except = true ∧
    (walk stringLiteralTree).all (fun n => !isTry n) = true := by
  refine ⟨?_, by decide, by decide, by decide⟩
  intro code
  exact containsL_iff "except:".data code.data

/-- Witness for `C10_confirmed` at the one-token text `except:`. -/
theorem C10_witness : bare_except_det "except:" = true :=
  (C10_confirmed.1 "except:").mpr ⟨[], [], by simp⟩

theorem spaceThenEq_concrete (rest : List Char) : spaceThenEq (' ' :: '=' :: rest) = true := rfl

theorem upperStarSpaceEq_of_space (l : List Char) (h : spaceThenEq l = true) :
    upperStarSpaceEq l = true := by
  cases l with
  | nil => simp [spaceThenEq] at h
  | cons c r =>
      have hstep : upperStarSpaceEq (c :: r) =
          (spaceThenEq (c :: r) || (isUpperUnder c && upperStarSpaceEq r)) := rfl
      rw [hstep, h]
      rfl

theorem upperStarSpaceEq_append (nm rest : List Char)
    (h : ∀ c ∈ nm, isUpperUnder c = true) (hrest : spaceThenEq rest = true) :
    upperStarSpaceEq (nm ++ rest) = true := by
  induction nm with
  | nil => simpa using upperStarSpaceEq_of_space rest hrest
  | cons c nm' ih =>
      have hstep : upperStarSpaceEq ((c :: nm') ++ rest) =
          (spaceThenEq ((c :: nm') ++ rest) ||
            (isUpperUnder c && upperStarSpaceEq (nm' ++ rest))) := rfl
      rw [hstep, h c (by simp), ih (fun d hd => h d (by simp [hd]))]
      simp

theorem gvMatchAt_upper (nm rest : List Char) (hne : nm ≠ [])
    (h : ∀ c ∈ nm, isUpperUnder c = true) (hrest : spaceThenEq rest = true) :
    gvMatchAt (nm ++ rest) = true := by
  cases nm with
  | nil => exact absurd rfl hne
  | cons c nm' =>
      have hstep : gvMatchAt ((c :: nm') ++ rest) =
          (isUpperUnder c && upperStarSpaceEq (nm' ++ rest)) := rfl
      rw [hstep, h c (by simp),
        upperStarSpaceEq_append nm' rest (fun d hd => h d (by simp [hd])) hrest]
      rfl

theorem gvScan_noNl (l : List Char) (h : ∀ c ∈ l, (c == '\n') = false) : gvScan l = false := by
  induction l with
  | nil => rfl
  | cons c r ih =>
      have hstep : gvScan (c :: r) = ((c == '\n' && gvMatchAt r) || gvScan r) := rfl
      rw [hstep, h c (by simp), ih (fun d hd => h d (by simp [hd]))]
      rfl

theorem isLowerAlpha_not_upper (c : Char) (h : isLowerAlpha c = true) : isUpperUnder c = false := by
  simp only [isLowerAlpha, Bool.and_eq_true, decide_eq_true_eq] at h
  have h1 : decide (c.toNat ≤ 90) = false := by
    simp only [decide_eq_false_iff_not]
    omega
  have h2 : (c == '_') = false := by
    simp only [beq_eq_false_iff_ne, ne_eq]
    intro heq
    have hval : ('_').toNat = 95 := rfl
    rw [heq] at h
    omega
  simp [isUpperUnder, h1, h2]

/-- Claim C1 — amended.  The detector is a single whole-text boolean with the
opposite polarity of the claim: `gvSearch` (the embedding of
`re.search(r"^[A-Z_]+\s*=", code, re.M)`, with
`global_variables_det code = gvSearch code.data`) reports the anti-pattern as
present for every module-level binding `NAME = rhs` whose name consists of
upper-case letters and underscores — such constants are flagged, not
exempted — and reports nothing for a lower-case binding `name = rhs` (with a
newline-free right-hand side), which is exempted, not flagged. -/
theorem C1_amended :
    (∀ (nm rhs : List Char), nm ≠ [] → (∀ c ∈ nm, isUpperUnder c = true) →
      gvSearch (nm ++ ' ' :: '=' :: ' ' :: rhs) = true) ∧
    (∀ (nm rhs : List Char), nm ≠ [] → (∀ c ∈ nm, isLowerAlpha c = true) →
      (∀ c ∈ rhs, isDigitCh c = true) →
      gvSearch (nm ++ ' ' :: '=' :: ' ' :: rhs) = false) := by
  constructor
  · intro nm rhs hne hup
    have h1 := gvMatchAt_upper nm (' ' :: '=' :: ' ' :: rhs) hne hup (spaceThenEq_concrete rhs)
    show (gvMatchAt (nm ++ ' ' :: '=' :: ' ' :: rhs) ||
      gvScan (nm ++ ' ' :: '=' :: ' ' :: rhs)) = true
    rw [h1]
    rfl
  · intro nm rhs hne hlo hdig
    have hnl : ∀ c ∈ nm ++ ' ' :: '=' :: ' ' :: rhs, (c == '\n') = false := by
      intro c hc
      simp only [beq_eq_false_iff_ne, ne_eq]
      intro heq
      have hval : ('\n').toNat = 10 := rfl
      rcases List.mem_append.mp hc with hm | hm
      · have := hlo c hm
        simp only [isLowerAlpha, Bool.and_eq_true, decide_eq_true_eq] at this
        rw [heq] at this
        omega
      · simp only [List.mem_cons] at hm
        rcases hm with rfl | rfl | rfl | hm
        · exact absurd heq (by decide)
        · exact absurd heq (by decide)
        · exact absurd heq (by decide)
        · have := hdig c hm
          simp only [isDigitCh, Bool.and_eq_true, decide_eq_true_eq] at this
          rw [heq] at this
          omega
    have hscan := gvScan_noNl _ hnl
    have hmatch : gvMatchAt (nm ++ ' ' :: '=' :: ' ' :: rhs) = false := by
      cases nm with
      | nil => exact absurd rfl hne
      | cons c nm' =>
          have hstep : gvMatchAt ((c :: nm') ++ (' ' :: '=' :: ' ' :: rhs)) =
              (isUpperUnder c && upperStarSpaceEq (nm' ++ (' ' :: '=' :: ' ' :: rhs))) := rfl
          rw [hstep, isLowerAlpha_not_upper c (hlo c (by simp))]
          rfl
    show (gvMatchAt (nm ++ ' ' :: '=' :: ' ' :: rhs) ||
      gvScan (nm ++ ' ' :: '=' :: ' ' :: rhs)) = false
    rw [hmatch, hscan]
    rfl

/-- Witness for `C1_amended` at the concrete bindings `X = 1` and `x = 1`. -/
theorem C1_witness :
    gvSearch (['X'] ++ ' ' :: '=' :: ' ' :: ['1']) = true ∧
    gvSearch (['x'] ++ ' ' :: '=' :: ' ' :: ['1']) = false :=
  ⟨C1_amended.1 ['X'] ['1'] (by decide) (by decide),
   C1_amended.2 ['x'] ['1'] (by decide) (by decide) (by decide)⟩

/-- Claim C1 — counterexample.  The claim exempts upper-case-with-underscores
module-level bindings and flags the rest; the code does the opposite:
`X = 1` is flagged as a global variable and `x = 1` is not. -/
theorem C1_counterexample :
    global_variables_det "X = 1" = true ∧ global_variables_det "x = 1" = false := by
  exact ⟨by decide, by decide⟩
